import Mathlib

/-!
Shallow embedding of `src/log_exporter.py` (plus the sink interface of
`src/opensearch_utils.py` and the `__main__` startup checks): the JSONL
read → parse → batch → flush pipeline in its three modes (one-time,
continuous tail, combined drain-then-tail).

Files are modelled as lists of lines (one entry per `readline` result,
without the trailing newline character); wall-clock time is modelled as a
natural number of time units advanced explicitly by events; the sink is
modelled by recording each `send_to_opensearch` call in a `sent` list
tagged with the trigger that caused it.
-/

namespace LogExporter

/-- JSON values as Python's `json` module materialises them, except `null`:
Python maps JSON `null` to the Python object `None`, which is also what
`parse_log_line` returns on a decode error.  We therefore model a loaded
value as `Option Json` (with `none` standing for Python `None`, i.e. JSON
null) and `Json` itself has no null constructor. -/
inductive Json where
  | bool (b : Bool)
  | num (n : Int)
  | str (s : String)
  | arr (elems : List Json)
  | obj (fields : List (String × Json))

/-- Result type of Python's `json.loads`: outer `none` models a raised
`JSONDecodeError`; `some none` models a successful parse whose value is the
Python object `None` (JSON `null`); `some (some v)` is any other value. -/
abbrev LoadResult := Option (Option Json)

/-- Models Python's `str.strip()` with no arguments: remove leading and
trailing whitespace characters. -/
def pystrip (s : String) : String :=
  ⟨((s.data.dropWhile Char.isWhitespace).reverse.dropWhile
      Char.isWhitespace).reverse⟩

/-- Digit-string reading used by the model JSON loader below. -/
def parseNatChars (cs : List Char) : Option Nat :=
  if cs ≠ [] ∧ cs.all Char.isDigit then
    some (cs.foldl (fun acc c => acc * 10 + (c.toNat - 48)) 0)
  else none

/-- Models Python's `json.loads` on the input fragment the concrete
theorems below exercise: the literals `null`, `true`, `false` and
unsigned decimal integers (surrounding whitespace tolerated, as in
Python).  Any other input is modelled as a decode error.  The pipeline
definitions themselves are parametric in the loader, so all universally
quantified theorems hold for every loader. -/
def json_loads_impl (line : String) : LoadResult :=
  let t := pystrip line
  if t = "null" then some none
  else if t = "true" then some (some (.bool true))
  else if t = "false" then some (some (.bool false))
  else
    match parseNatChars t.data with
    | some n => some (some (.num (Int.ofNat n)))
    | none => none

/-- Embedding of `parse_log_line` (src/log_exporter.py lines 38-49): it
returns `json.loads(line)` on success and Python `None` on a decode error.
Because `json.loads "null"` is itself Python `None`, the caller cannot
distinguish a JSON null from a parse failure; that conflation is the
`Option.join`. -/
def parse_log_line (jl : String → LoadResult) (line : String) : Option Json :=
  match jl line with
  | none => none
  | some v => v

/-- Embedding of `yield_log_lines` (lines 27-35): strip each line and skip
the ones that are empty after stripping. -/
def yield_log_lines (fileLines : List String) : List String :=
  (fileLines.map pystrip).filter (fun l => l ≠ "")

/-- Models `line.rstrip('\n')` as applied by `tail_log_lines` (line 110):
only trailing newline characters are removed, not other whitespace. -/
def rstrip_newline (s : String) : String :=
  ⟨(s.data.reverse.dropWhile (fun c => c = '\n')).reverse⟩

/-- One element of the `bulk_data` list sent to the OpenSearch bulk API:
either an action header object of shape `index / _index / <name>` or a log
record. -/
inductive BulkItem where
  | action (indexName : String)
  | record (entry : Json)

/-- Embedding of `add_to_bulk_data` (lines 52-61): append the action
header for `index_name`, then the log entry itself. -/
def add_to_bulk_data (bulk_data : List BulkItem) (log_entry : Json)
    (index_name : String) : List BulkItem :=
  bulk_data ++ [.action index_name, .record log_entry]

/-- Which branch of the code performed a given `send_to_opensearch` call:
the count-based batch flush, the flush-interval flush, or the residual
flush of remaining data. -/
inductive Trigger where
  | count
  | interval
  | residual
deriving DecidableEq

/-- The records contained in a bulk-data list, in order. -/
def recordsOf (bulk : List BulkItem) : List Json :=
  bulk.filterMap (fun item =>
    match item with
    | .record e => some e
    | .action _ => none)

/-- All records across a sequence of sink calls, in delivery order. -/
def flatRecords (sent : List (Trigger × List BulkItem)) : List Json :=
  (sent.map (fun b => recordsOf b.2)).flatten

/-- The canonical well-formed bulk payload for a record list: each record
preceded by its own action header. -/
def mkBulk (indexName : String) : List Json → List BulkItem
  | [] => []
  | r :: rs => .action indexName :: .record r :: mkBulk indexName rs

/-- State of the one-time exporter `export_log_to_opensearch`
(lines 64-98).  `parsed` records, in order, every string that was passed
to `parse_log_line`; `sent` records every `send_to_opensearch` call. -/
structure OneTimeState where
  bulk_data : List BulkItem
  processed : Nat
  sent : List (Trigger × List BulkItem)
  parsed : List String

/-- Loop body of `export_log_to_opensearch` (lines 79-88) for one line
yielded by `yield_log_lines`: parse, skip on failure, otherwise append to
the bulk data, bump the counter and flush when the running total is a
multiple of the batch size. -/
def export_log_body (jl : String → LoadResult) (B : Nat) (idx : String)
    (st : OneTimeState) (line : String) : OneTimeState :=
  match parse_log_line jl line with
  | none => { st with parsed := st.parsed ++ [line] }
  | some e =>
    let bd := add_to_bulk_data st.bulk_data e idx
    let p := st.processed + 1
    if p % B = 0 then
      { bulk_data := [], processed := p, sent := st.sent ++ [(.count, bd)],
        parsed := st.parsed ++ [line] }
    else
      { bulk_data := bd, processed := p, sent := st.sent,
        parsed := st.parsed ++ [line] }

/-- The `finally` clause (lines 94-98): send any remaining data before
exiting.  An empty buffer produces no sink call. -/
def export_log_finally (st : OneTimeState) : OneTimeState :=
  if st.bulk_data.isEmpty then st
  else { st with sent := st.sent ++ [(.residual, st.bulk_data)], bulk_data := [] }

/-- Embedding of a complete one-time run of `export_log_to_opensearch`
over a file whose lines are `fileLines`, with loader `jl`, batch size `B`
and index name `idx`. -/
def export_log_to_opensearch (jl : String → LoadResult) (B : Nat)
    (idx : String) (fileLines : List String) : OneTimeState :=
  export_log_finally
    ((yield_log_lines fileLines).foldl (export_log_body jl B idx)
      ⟨[], 0, [], []⟩)

/-- Embedding of a one-time run aborted by a mid-stream read error after
`k` lines were yielded: the `except` clause absorbs the error and the
`finally` clause still flushes the remaining buffer (lines 92-98). -/
def export_log_aborted (jl : String → LoadResult) (B : Nat) (idx : String)
    (fileLines : List String) (k : Nat) : OneTimeState :=
  export_log_finally
    (((yield_log_lines fileLines).take k).foldl (export_log_body jl B idx)
      ⟨[], 0, [], []⟩)

/-!  Helper lemmas about the bulk-data shape and batching arithmetic. -/

@[simp] lemma recordsOf_nil : recordsOf [] = [] := rfl

@[simp] lemma recordsOf_append (a b : List BulkItem) :
    recordsOf (a ++ b) = recordsOf a ++ recordsOf b := by
  simp [recordsOf]

@[simp] lemma recordsOf_add (bd : List BulkItem) (e : Json) (i : String) :
    recordsOf (add_to_bulk_data bd e i) = recordsOf bd ++ [e] := by
  simp [add_to_bulk_data, recordsOf]

@[simp] lemma flatRecords_nil : flatRecords [] = [] := rfl

@[simp] lemma flatRecords_append (s t : List (Trigger × List BulkItem)) :
    flatRecords (s ++ t) = flatRecords s ++ flatRecords t := by
  simp [flatRecords]

@[simp] lemma flatRecords_single (t : Trigger) (d : List BulkItem) :
    flatRecords [(t, d)] = recordsOf d := by
  simp [flatRecords]

lemma mkBulk_append (i : String) (rs : List Json) (e : Json) :
    mkBulk i (rs ++ [e]) = mkBulk i rs ++ [.action i, .record e] := by
  induction rs with
  | nil => rfl
  | cons r rs ih => simp [mkBulk, ih]

@[simp] lemma recordsOf_mkBulk (i : String) (rs : List Json) :
    recordsOf (mkBulk i rs) = rs := by
  induction rs with
  | nil => rfl
  | cons r rs ih => simp [mkBulk, recordsOf] at ih ⊢; exact ih

lemma mkBulk_add (i : String) (rs : List Json) (e : Json) :
    add_to_bulk_data (mkBulk i rs) e i = mkBulk i (rs ++ [e]) := by
  rw [mkBulk_append]; rfl

lemma mkBulk_isEmpty_iff (i : String) (rs : List Json) :
    (mkBulk i rs).isEmpty = true ↔ rs = [] := by
  cases rs <;> simp [mkBulk]

lemma foldl_induction {σ α : Type _} (P : σ → Prop) (f : σ → α → σ)
    (h : ∀ s a, P s → P (f s a)) :
    ∀ (l : List α) (s : σ), P s → P (l.foldl f s) := by
  intro l
  induction l with
  | nil => intro s hs; exact hs
  | cons a l ih => intro s hs; exact ih _ (h s a hs)

lemma succ_mod_of_ne (p B : Nat) (h : (p + 1) % B ≠ 0) :
    (p + 1) % B = p % B + 1 := by
  rcases Nat.eq_zero_or_pos B with hB | hB
  · subst hB; simp
  · have hlt : p % B < B := Nat.mod_lt _ hB
    have hrw : (p + 1) % B = (p % B + 1) % B := by
      conv_lhs => rw [← Nat.mod_add_div p B]
      rw [Nat.add_right_comm, Nat.add_mul_mod_self_left]
    rcases Nat.lt_or_ge (p % B + 1) B with h' | h'
    · rw [hrw, Nat.mod_eq_of_lt h']
    · exfalso
      have : p % B + 1 = B := by omega
      rw [hrw, this, Nat.mod_self] at h
      exact h rfl

lemma succ_div_of_mod_eq (p B : Nat) (h : (p + 1) % B = 0) :
    (p + 1) / B = p / B + 1 :=
  Nat.succ_div_of_dvd (Nat.dvd_of_mod_eq_zero h)

lemma succ_div_of_mod_ne (p B : Nat) (h : (p + 1) % B ≠ 0) :
    (p + 1) / B = p / B := by
  rcases Nat.eq_zero_or_pos B with hB | hB
  · subst hB; simp
  · have hdvd : ¬ B ∣ p + 1 := fun hd => h (Nat.mod_eq_zero_of_dvd hd)
    exact Nat.succ_div_of_not_dvd hdvd

lemma ceil_div_eq (B N : Nat) (hB : 0 < B) :
    (N + B - 1) / B = N / B + (if N % B = 0 then 0 else 1) := by
  have hN : B * (N / B) + N % B = N := Nat.div_add_mod N B
  have hr : N % B < B := Nat.mod_lt _ hB
  by_cases h : N % B = 0
  · rw [if_pos h]
    have h1 : N + B - 1 = (B - 1) + B * (N / B) := by omega
    rw [h1, Nat.add_mul_div_left _ _ hB, Nat.div_eq_of_lt (by omega)]
    omega
  · rw [if_neg h]
    have hmul : B * (N / B + 1) = B * (N / B) + B := by ring
    have h1 : N + B - 1 = (N % B - 1) + B * (N / B + 1) := by omega
    rw [h1, Nat.add_mul_div_left _ _ hB, Nat.div_eq_of_lt (by omega)]
    omega

lemma filterMap_length_of_isSome {α β : Type _} (f : α → Option β) :
    ∀ (ls : List α), (∀ l ∈ ls, (f l).isSome = true) →
      (ls.filterMap f).length = ls.length := by
  intro ls
  induction ls with
  | nil => intro _; rfl
  | cons a l ih =>
    intro h
    obtain ⟨v, hv⟩ := Option.isSome_iff_exists.mp (h a (by simp))
    rw [List.filterMap_cons, hv]
    simp only [List.length_cons]
    rw [ih (fun x hx => h x (by simp [hx]))]

/-- Unconditional bookkeeping facts about the one-time loop: records are
conserved (everything parsed is either already sent or still buffered, in
order), every line of the stream is handed to the parser, and the
processed-lines counter counts exactly the successful parses. -/
lemma export_fold_facts (jl : String → LoadResult) (B : Nat) (idx : String) :
    ∀ (ls : List String) (st : OneTimeState),
      flatRecords (ls.foldl (export_log_body jl B idx) st).sent
          ++ recordsOf (ls.foldl (export_log_body jl B idx) st).bulk_data
        = flatRecords st.sent ++ recordsOf st.bulk_data
            ++ ls.filterMap (parse_log_line jl) ∧
      (ls.foldl (export_log_body jl B idx) st).parsed = st.parsed ++ ls ∧
      (ls.foldl (export_log_body jl B idx) st).processed
        = st.processed + ls.countP (fun l => (parse_log_line jl l).isSome) := by
  intro ls
  induction ls with
  | nil => intro st; simp
  | cons l rest ih =>
    intro st
    rw [List.foldl_cons]
    cases h : parse_log_line jl l with
    | none =>
      obtain ⟨ih1, ih2, ih3⟩ := ih { st with parsed := st.parsed ++ [l] }
      refine ⟨?_, ?_, ?_⟩
      · simp only [export_log_body, h]
        rw [ih1]
        simp [List.filterMap_cons, h]
      · simp only [export_log_body, h] at ih2 ⊢
        rw [ih2]; simp
      · simp only [export_log_body, h] at ih3 ⊢
        rw [ih3]; simp [List.countP_cons, h]
    | some e =>
      by_cases hp : (st.processed + 1) % B = 0
      · have hbody : export_log_body jl B idx st l =
            { bulk_data := [], processed := st.processed + 1,
              sent := st.sent ++ [(.count, add_to_bulk_data st.bulk_data e idx)],
              parsed := st.parsed ++ [l] } := by
          simp [export_log_body, h, hp]
        obtain ⟨ih1, ih2, ih3⟩ := ih _
        rw [hbody] at *
        refine ⟨?_, ?_, ?_⟩
        · rw [ih1]
          simp [List.filterMap_cons, h]
        · rw [ih2]; simp
        · rw [ih3]; simp [List.countP_cons, h]; omega
      · have hbody : export_log_body jl B idx st l =
            { bulk_data := add_to_bulk_data st.bulk_data e idx,
              processed := st.processed + 1, sent := st.sent,
              parsed := st.parsed ++ [l] } := by
          simp [export_log_body, h, hp]
        obtain ⟨ih1, ih2, ih3⟩ := ih _
        rw [hbody] at *
        refine ⟨?_, ?_, ?_⟩
        · rw [ih1]
          simp [List.filterMap_cons, h]
        · rw [ih2]; simp
        · rw [ih3]; simp [List.countP_cons, h]; omega

/-- Counting invariant of the one-time loop when every line parses: the
buffer always holds exactly `processed % B` records (as a well-formed bulk
payload) and the number of sink calls made so far is `processed / B`. -/
lemma export_fold_count (jl : String → LoadResult) (B : Nat) (idx : String) :
    ∀ (ls : List String) (st : OneTimeState) (brecs : List Json),
      (∀ l ∈ ls, (parse_log_line jl l).isSome = true) →
      st.bulk_data = mkBulk idx brecs →
      brecs.length = st.processed % B →
      (∃ brecs', (ls.foldl (export_log_body jl B idx) st).bulk_data
          = mkBulk idx brecs' ∧
        brecs'.length = (ls.foldl (export_log_body jl B idx) st).processed % B) ∧
      (ls.foldl (export_log_body jl B idx) st).processed
        = st.processed + ls.length ∧
      (ls.foldl (export_log_body jl B idx) st).sent.length + st.processed / B
        = st.sent.length + (st.processed + ls.length) / B := by
  intro ls
  induction ls with
  | nil =>
    intro st brecs _ hbulk hlen
    exact ⟨⟨brecs, hbulk, hlen⟩, by simp, by simp⟩
  | cons l rest ih =>
    intro st brecs hok hbulk hlen
    obtain ⟨e, he⟩ := Option.isSome_iff_exists.mp (hok l (by simp))
    rw [List.foldl_cons]
    have hrest : ∀ l' ∈ rest, (parse_log_line jl l').isSome = true :=
      fun l' hl' => hok l' (by simp [hl'])
    by_cases hp : (st.processed + 1) % B = 0
    · have hbody : export_log_body jl B idx st l =
          { bulk_data := [], processed := st.processed + 1,
            sent := st.sent ++ [(.count, add_to_bulk_data st.bulk_data e idx)],
            parsed := st.parsed ++ [l] } := by
        simp [export_log_body, he, hp]
      rw [hbody]
      obtain ⟨hwf, hproc, hsent⟩ := ih
        { bulk_data := [], processed := st.processed + 1,
          sent := st.sent ++ [(.count, add_to_bulk_data st.bulk_data e idx)],
          parsed := st.parsed ++ [l] }
        [] hrest rfl (by simp [hp])
      refine ⟨hwf, by simp at hproc ⊢; omega, ?_⟩
      simp only [List.length_append, List.length_cons, List.length_nil] at hsent ⊢
      have hdiv : (st.processed + 1) / B = st.processed / B + 1 :=
        succ_div_of_mod_eq _ _ hp
      have harith : (st.processed + 1) + rest.length
          = st.processed + (rest.length + 1) := by omega
      rw [harith] at hsent
      omega
    · have hbody : export_log_body jl B idx st l =
          { bulk_data := add_to_bulk_data st.bulk_data e idx,
            processed := st.processed + 1, sent := st.sent,
            parsed := st.parsed ++ [l] } := by
        simp [export_log_body, he, hp]
      rw [hbody]
      have hmod : (st.processed + 1) % B = st.processed % B + 1 :=
        succ_mod_of_ne _ _ hp
      obtain ⟨hwf, hproc, hsent⟩ := ih
        { bulk_data := add_to_bulk_data st.bulk_data e idx,
          processed := st.processed + 1, sent := st.sent,
          parsed := st.parsed ++ [l] }
        (brecs ++ [e]) hrest
        (by simp [hbulk, mkBulk_add])
        (by simp [hmod, hlen])
      refine ⟨hwf, by simp at hproc ⊢; omega, ?_⟩
      have hdiv : (st.processed + 1) / B = st.processed / B :=
        succ_div_of_mod_ne _ _ hp
      dsimp only at hsent
      simp only [List.length_cons]
      have harith : (st.processed + 1) + rest.length
          = st.processed + (rest.length + 1) := by omega
      rw [harith] at hsent
      omega

/-- The residual flush of the `finally` clause delivers exactly the
buffered records, after everything already sent. -/
lemma export_log_finally_flat (st : OneTimeState) :
    flatRecords (export_log_finally st).sent
      = flatRecords st.sent ++ recordsOf st.bulk_data := by
  unfold export_log_finally
  cases h : st.bulk_data.isEmpty
  · simp [h]
  · have : st.bulk_data = [] := List.isEmpty_iff.mp h
    simp [h, this]

/-- Sink-call count of the `finally` clause: one extra call exactly when
the buffer is non-empty. -/
lemma export_log_finally_sent_length (st : OneTimeState) :
    (export_log_finally st).sent.length
      = st.sent.length + (if st.bulk_data.isEmpty then 0 else 1) := by
  unfold export_log_finally
  cases h : st.bulk_data.isEmpty <;> simp [h]

/-- C2: for every JSONL input whose `N` non-blank lines all parse, the
one-time mode makes exactly `⌈N / B⌉ = (N + B - 1) / B` sink calls, the
records across those calls are exactly the parses of the input lines in
original file order, and their total count is exactly `N`. -/
theorem C2_one_time_batch_flushes (jl : String → LoadResult) (B : Nat)
    (idx : String) (fileLines : List String) (hB : 0 < B)
    (hok : ∀ l ∈ yield_log_lines fileLines,
      (parse_log_line jl l).isSome = true) :
    (export_log_to_opensearch jl B idx fileLines).sent.length
      = ((yield_log_lines fileLines).length + B - 1) / B ∧
    flatRecords (export_log_to_opensearch jl B idx fileLines).sent
      = (yield_log_lines fileLines).filterMap (parse_log_line jl) ∧
    (flatRecords (export_log_to_opensearch jl B idx fileLines).sent).length
      = (yield_log_lines fileLines).length := by
  have hfacts := (export_fold_facts jl B idx (yield_log_lines fileLines)
    ⟨[], 0, [], []⟩).1
  have hcount := export_fold_count jl B idx (yield_log_lines fileLines)
    ⟨[], 0, [], []⟩ [] hok rfl (by simp)
  obtain ⟨⟨brecs, hbulk, hblen⟩, hproc, hsent⟩ := hcount
  have horder : flatRecords (export_log_to_opensearch jl B idx fileLines).sent
      = (yield_log_lines fileLines).filterMap (parse_log_line jl) := by
    unfold export_log_to_opensearch
    rw [export_log_finally_flat, hfacts]
    simp [flatRecords, recordsOf]
  refine ⟨?_, horder, ?_⟩
  · unfold export_log_to_opensearch
    rw [export_log_finally_sent_length]
    have hslen : ((yield_log_lines fileLines).foldl (export_log_body jl B idx)
        ⟨[], 0, [], []⟩).sent.length = (yield_log_lines fileLines).length / B := by
      simpa using hsent
    have hempty : (((yield_log_lines fileLines).foldl (export_log_body jl B idx)
          ⟨[], 0, [], []⟩).bulk_data.isEmpty = true)
        ↔ (yield_log_lines fileLines).length % B = 0 := by
      rw [hbulk, mkBulk_isEmpty_iff]
      constructor
      · intro h
        have : brecs.length = 0 := by simp [h]
        rw [this] at hblen
        rw [hproc] at hblen
        simpa using hblen.symm
      · intro h
        have : brecs.length = 0 := by
          rw [hblen, hproc]
          simpa using h
        exact List.length_eq_zero.mp this
    rw [ceil_div_eq _ _ hB, hslen]
    by_cases h : (yield_log_lines fileLines).length % B = 0
    · rw [if_pos h, if_pos (hempty.mpr h)]
    · rw [if_neg h, if_neg (fun hc => h (hempty.mp hc))]
  · rw [horder]
    exact filterMap_length_of_isSome _ _ hok

/-- Witness for C2 at the spec's first concrete scenario (three records,
batch size 100, one flush containing all three in order). -/
theorem C2_one_time_batch_flushes_witness :
    (0 < 100 ∧ ∀ l ∈ yield_log_lines ["1", "2", "3"],
      (parse_log_line json_loads_impl l).isSome = true) ∧
    ((export_log_to_opensearch json_loads_impl 100 "logs" ["1", "2", "3"]).sent.length
        = ((yield_log_lines ["1", "2", "3"]).length + 100 - 1) / 100 ∧
      flatRecords (export_log_to_opensearch json_loads_impl 100 "logs"
          ["1", "2", "3"]).sent
        = (yield_log_lines ["1", "2", "3"]).filterMap
            (parse_log_line json_loads_impl) ∧
      (flatRecords (export_log_to_opensearch json_loads_impl 100 "logs"
          ["1", "2", "3"]).sent).length
        = (yield_log_lines ["1", "2", "3"]).length) :=
  ⟨⟨by decide, by decide⟩,
    C2_one_time_batch_flushes json_loads_impl 100 "logs" ["1", "2", "3"]
      (by decide) (by decide)⟩

/-!
Event machines for the tailing modes.  An external writer and the passage
of wall-clock time are modelled as events interleaved with the exporter's
polls: `append l` is the writer appending one line to the file, `advance d`
is `d` time units of wall clock passing, and `poll` is one `readline`
attempt by the exporter (which either consumes the next available line and
runs the loop body, or hits end-of-file).
-/

/-- External events interleaved with the export loop. -/
inductive Ev where
  | append (line : String)
  | advance (d : Nat)
  | poll

/-- State of `continuous_export_log_to_opensearch` (lines 115-161)
together with its `tail_log_lines` generator (lines 101-112).
`pending` holds the lines appended after start-up but not yet read
(`tail_log_lines` seeks to end-of-file on open, so pre-existing content is
never visible); `read` records the raw lines consumed; `parsed` records
every string passed to `parse_log_line`. -/
structure ContState where
  pending : List String
  read : List String
  bulk_data : List BulkItem
  processed : Nat
  last_flush : Nat
  now : Nat
  sent : List (Trigger × List BulkItem)
  parsed : List String

/-- Loop body of `continuous_export_log_to_opensearch` (lines 139-155) for
one line yielded by `tail_log_lines`: the raw line is stripped only of its
trailing newline, passed to the parser unconditionally, and on success
appended to the bulk data; then the count trigger is checked first and the
interval trigger only in the `elif`. -/
def continuous_line_body (jl : String → LoadResult) (B : Nat) (I : Nat)
    (idx : String) (st : ContState) (raw : String) : ContState :=
  match parse_log_line jl (rstrip_newline raw) with
  | none =>
    { st with
      read := st.read ++ [raw], parsed := st.parsed ++ [rstrip_newline raw] }
  | some e =>
    let bd := add_to_bulk_data st.bulk_data e idx
    let p := st.processed + 1
    if p % B = 0 then
      { st with
        read := st.read ++ [raw],
        parsed := st.parsed ++ [rstrip_newline raw],
        bulk_data := [], processed := p,
        sent := st.sent ++ [(.count, bd)], last_flush := st.now }
    else if bd.isEmpty = false ∧ I ≤ st.now - st.last_flush then
      { st with
        read := st.read ++ [raw],
        parsed := st.parsed ++ [rstrip_newline raw],
        bulk_data := [], processed := p,
        sent := st.sent ++ [(.interval, bd)], last_flush := st.now }
    else
      { st with
        read := st.read ++ [raw],
        parsed := st.parsed ++ [rstrip_newline raw],
        bulk_data := bd, processed := p }

/-- One step of the continuous machine.  On a `poll` with no pending line,
`tail_log_lines` sleeps inside the generator (line 112): the sleep advances
the clock and the consumer loop body is never entered, so no flush check of
any kind runs on an idle poll. -/
def continuousStep (jl : String → LoadResult) (B : Nat) (I : Nat)
    (sleep : Nat) (idx : String) (st : ContState) : Ev → ContState
  | .append l => { st with pending := st.pending ++ [l] }
  | .advance d => { st with now := st.now + d }
  | .poll =>
    match st.pending with
    | [] => { st with now := st.now + sleep }
    | l :: rest => continuous_line_body jl B I idx { st with pending := rest } l

/-- Initial state of a continuous run: the file handle is at end-of-file,
nothing buffered, `last_flush` initialised to the current time (line 128,
taken as time 0). -/
def contInit : ContState := ⟨[], [], [], 0, 0, 0, [], []⟩

/-- Embedding of a run of `continuous_export_log_to_opensearch` over an
event trace.  A mid-tail read error ends the run with the state unchanged:
the `except` handler (lines 156-160) performs no flush, so the delivered
batches of an aborted run are exactly `.sent`. -/
def continuous_export_log_to_opensearch (jl : String → LoadResult) (B : Nat)
    (I : Nat) (sleep : Nat) (idx : String) (events : List Ev) : ContState :=
  events.foldl (continuousStep jl B I sleep idx) contInit

/-- Phase of `combined_export_log_to_opensearch`: the initial drain of
pre-existing content, or the tailing loop entered after end-of-file. -/
inductive Phase where
  | draining
  | tailing
deriving DecidableEq

/-- State of `combined_export_log_to_opensearch` (lines 163-254).  The
file is held open once: `file` is its current full line content (appends
extend it) and `cursor` the read position of the single shared handle.
One `processed` counter and one `bulk_data` buffer serve both phases. -/
structure CombState where
  file : List String
  cursor : Nat
  phase : Phase
  bulk_data : List BulkItem
  processed : Nat
  last_flush : Nat
  now : Nat
  sent : List (Trigger × List BulkItem)
  parsed : List String

/-- Shared per-line body of both combined-mode loops (lines 193-211 and
223-241, which are textually identical): strip the line, skip it when
blank, parse, skip on failure, otherwise accumulate and check the count
trigger first and the interval trigger in the `elif`. -/
def combined_line_body (jl : String → LoadResult) (B : Nat) (I : Nat)
    (idx : String) (st : CombState) (raw : String) : CombState :=
  let line := pystrip raw
  if line = "" then st
  else
    let st := { st with parsed := st.parsed ++ [line] }
    match parse_log_line jl line with
    | none => st
    | some e =>
      let bd := add_to_bulk_data st.bulk_data e idx
      let p := st.processed + 1
      if p % B = 0 then
        { st with
          bulk_data := [], processed := p,
          sent := st.sent ++ [(.count, bd)], last_flush := st.now }
      else if bd.isEmpty = false ∧ I ≤ st.now - st.last_flush then
        { st with
          bulk_data := [], processed := p,
          sent := st.sent ++ [(.interval, bd)], last_flush := st.now }
      else
        { st with bulk_data := bd, processed := p }

/-- One step of the combined machine.  A `poll` in the draining phase
reads the next line if one exists; otherwise `readline` returns an empty
string, the drain loop breaks, any remaining buffer is flushed
(lines 212-216) and the machine switches to tailing with `last_flush`
reset (line 219).  A `poll` in the tailing phase reads the next line if
one exists; otherwise it sleeps and then checks the idle interval trigger
(lines 242-249). -/
def combinedStep (jl : String → LoadResult) (B : Nat) (I : Nat)
    (sleep : Nat) (idx : String) (st : CombState) : Ev → CombState
  | .append l => { st with file := st.file ++ [l] }
  | .advance d => { st with now := st.now + d }
  | .poll =>
    match st.phase with
    | .draining =>
      match st.file[st.cursor]? with
      | some raw =>
        combined_line_body jl B I idx { st with cursor := st.cursor + 1 } raw
      | none =>
        let st :=
          if st.bulk_data.isEmpty then st
          else
            { st with
              sent := st.sent ++ [(.residual, st.bulk_data)], bulk_data := [] }
        { st with phase := .tailing, last_flush := st.now }
    | .tailing =>
      match st.file[st.cursor]? with
      | some raw =>
        combined_line_body jl B I idx { st with cursor := st.cursor + 1 } raw
      | none =>
        let now := st.now + sleep
        if st.bulk_data.isEmpty = false ∧ I ≤ now - st.last_flush then
          { st with
            now := now, sent := st.sent ++ [(.interval, st.bulk_data)],
            bulk_data := [], last_flush := now }
        else { st with now := now }

/-- Initial state of a combined run over a file whose pre-open content is
`initLines`: the file is opened once at position 0, phase draining,
`last_flush` initialised at start-up (line 184, taken as time 0). -/
def combInit (initLines : List String) : CombState :=
  ⟨initLines, 0, .draining, [], 0, 0, 0, [], []⟩

/-- Embedding of a run of `combined_export_log_to_opensearch` over an
event trace starting from pre-open content `initLines`.  As in continuous
mode, the `except` handler (lines 250-254) performs no flush, so the
delivered batches of a run aborted by a read error are exactly `.sent`. -/
def combined_export_log_to_opensearch (jl : String → LoadResult) (B : Nat)
    (I : Nat) (sleep : Nat) (idx : String) (initLines : List String)
    (events : List Ev) : CombState :=
  events.foldl (combinedStep jl B I sleep idx) (combInit initLines)

/-- The record one raw file line contributes in the combined loops:
nothing when blank after stripping or when the parse fails, otherwise its
parsed value. -/
def extractRecord (jl : String → LoadResult) (raw : String) : Option Json :=
  if pystrip raw = "" then none else parse_log_line jl (pystrip raw)

/-- The strings the combined loops forward to the parser for a list of raw
lines: the strip of every line that is non-blank after stripping. -/
def nonBlankTrims (ls : List String) : List String :=
  ls.filterMap
    (fun raw => if pystrip raw = "" then none else some (pystrip raw))

@[simp] lemma nonBlankTrims_append (a b : List String) :
    nonBlankTrims (a ++ b) = nonBlankTrims a ++ nonBlankTrims b := by
  simp [nonBlankTrims]

lemma nonBlankTrims_singleton (raw : String) :
    nonBlankTrims [raw]
      = if pystrip raw = "" then [] else [pystrip raw] := by
  by_cases h : pystrip raw = "" <;> simp [nonBlankTrims, h]

/-- The lines appended by the writer during an event trace, in order. -/
def appendsOf (events : List Ev) : List String :=
  events.filterMap (fun e =>
    match e with
    | .append l => some l
    | _ => none)

/-- Inductive invariant of the combined machine: the cursor stays inside
the file; everything sent plus everything buffered is exactly the records
extracted from the lines read so far, in order; the parser has been handed
exactly the non-blank strips of the lines read so far; and the buffer and
every sent payload are well-formed header/record alternations. -/
def CombI (jl : String → LoadResult) (idx : String) (st : CombState) : Prop :=
  st.cursor ≤ st.file.length ∧
  flatRecords st.sent ++ recordsOf st.bulk_data
    = (st.file.take st.cursor).filterMap (extractRecord jl) ∧
  st.parsed = nonBlankTrims (st.file.take st.cursor) ∧
  (∃ r, st.bulk_data = mkBulk idx r) ∧
  (∀ b ∈ st.sent, ∃ r, b.2 = mkBulk idx r)

/-- Effect of the shared combined loop body on the observable fields. -/
lemma combined_line_body_facts (jl : String → LoadResult) (B I : Nat)
    (idx : String) (st : CombState) (raw : String) :
    (combined_line_body jl B I idx st raw).file = st.file ∧
    (combined_line_body jl B I idx st raw).cursor = st.cursor ∧
    (combined_line_body jl B I idx st raw).phase = st.phase ∧
    flatRecords (combined_line_body jl B I idx st raw).sent
        ++ recordsOf (combined_line_body jl B I idx st raw).bulk_data
      = flatRecords st.sent ++ recordsOf st.bulk_data
          ++ (extractRecord jl raw).toList ∧
    (combined_line_body jl B I idx st raw).parsed
      = st.parsed ++ (if pystrip raw = "" then [] else [pystrip raw]) ∧
    ((∃ r, st.bulk_data = mkBulk idx r) →
      (∃ r, (combined_line_body jl B I idx st raw).bulk_data = mkBulk idx r) ∧
      ∀ b ∈ (combined_line_body jl B I idx st raw).sent,
        b ∈ st.sent ∨ ∃ r, b.2 = mkBulk idx r) := by
  unfold combined_line_body extractRecord
  by_cases hblank : pystrip raw = ""
  · simp only [hblank, if_pos rfl, if_true]
    refine ⟨by trivial, by trivial, by trivial, by simp, by simp, ?_⟩
    intro hwf
    exact ⟨hwf, fun b hb => Or.inl hb⟩
  · simp only [if_neg hblank]
    cases hp : parse_log_line jl (pystrip raw) with
    | none =>
      refine ⟨by trivial, by trivial, by trivial, by simp, by simp, ?_⟩
      intro hwf
      exact ⟨hwf, fun b hb => Or.inl hb⟩
    | some e =>
      by_cases hcnt : (st.processed + 1) % B = 0
      · simp only [if_pos hcnt]
        refine ⟨by trivial, by trivial, by trivial, by simp, by simp, ?_⟩
        rintro ⟨r, hr⟩
        refine ⟨⟨[], rfl⟩, ?_⟩
        intro b hb
        simp only [List.mem_append, List.mem_singleton] at hb
        rcases hb with hb | hb
        · exact Or.inl hb
        · refine Or.inr ⟨r ++ [e], ?_⟩
          rw [hb, hr]
          exact mkBulk_add idx r e
      · simp only [if_neg hcnt]
        by_cases hint :
            (add_to_bulk_data st.bulk_data e idx).isEmpty = false
              ∧ I ≤ st.now - st.last_flush
        · simp only [if_pos hint]
          refine ⟨by trivial, by trivial, by trivial, by simp, by simp, ?_⟩
          rintro ⟨r, hr⟩
          refine ⟨⟨[], rfl⟩, ?_⟩
          intro b hb
          simp only [List.mem_append, List.mem_singleton] at hb
          rcases hb with hb | hb
          · exact Or.inl hb
          · refine Or.inr ⟨r ++ [e], ?_⟩
            rw [hb, hr]
            exact mkBulk_add idx r e
        · simp only [if_neg hint]
          refine ⟨by trivial, by trivial, by trivial, by simp, by simp, ?_⟩
          rintro ⟨r, hr⟩
          refine ⟨⟨r ++ [e], by rw [hr]; exact mkBulk_add idx r e⟩, ?_⟩
          intro b hb
          exact Or.inl hb

/-- One step of the combined machine preserves the invariant. -/
lemma combined_step_inv (jl : String → LoadResult) (B I sleep : Nat)
    (idx : String) (st : CombState) (ev : Ev) (h : CombI jl idx st) :
    CombI jl idx (combinedStep jl B I sleep idx st ev) := by
  obtain ⟨hc, hcons, hpar, ⟨br, hbulk⟩, hsent⟩ := h
  cases ev with
  | append l =>
    refine ⟨?_, ?_, ?_, ⟨br, hbulk⟩, hsent⟩
    · show st.cursor ≤ (st.file ++ [l]).length
      rw [List.length_append]
      omega
    · show flatRecords st.sent ++ recordsOf st.bulk_data
        = ((st.file ++ [l]).take st.cursor).filterMap (extractRecord jl)
      rw [List.take_append_of_le_length hc]
      exact hcons
    · show st.parsed = nonBlankTrims ((st.file ++ [l]).take st.cursor)
      rw [List.take_append_of_le_length hc]
      exact hpar
  | advance d => exact ⟨hc, hcons, hpar, ⟨br, hbulk⟩, hsent⟩
  | poll =>
    have hline : ∀ raw, st.file[st.cursor]? = some raw →
        CombI jl idx
          (combined_line_body jl B I idx { st with cursor := st.cursor + 1 } raw) := by
      intro raw hget
      have hlt : st.cursor < st.file.length := (List.getElem?_eq_some.mp hget).1
      have htake : st.file.take (st.cursor + 1)
          = st.file.take st.cursor ++ [raw] := by
        rw [List.take_succ, hget]
        rfl
      obtain ⟨hf, hcur, _, hrec, hpar2, hwf⟩ :=
        combined_line_body_facts jl B I idx { st with cursor := st.cursor + 1 } raw
      obtain ⟨hwfb, hwfs⟩ := hwf ⟨br, hbulk⟩
      refine ⟨?_, ?_, ?_, hwfb, ?_⟩
      · rw [hf, hcur]
        exact hlt
      · rw [hf, hcur, hrec]
        show flatRecords st.sent ++ recordsOf st.bulk_data
              ++ (extractRecord jl raw).toList
            = (st.file.take (st.cursor + 1)).filterMap (extractRecord jl)
        have hsingle : List.filterMap (extractRecord jl) [raw]
            = (extractRecord jl raw).toList := by
          cases hx : extractRecord jl raw <;> simp [hx]
        rw [htake, List.filterMap_append, hsingle, hcons]
      · rw [hf, hcur, hpar2]
        show st.parsed ++ (if pystrip raw = "" then [] else [pystrip raw])
            = nonBlankTrims (st.file.take (st.cursor + 1))
        rw [htake, nonBlankTrims_append, nonBlankTrims_singleton, ← hpar]
      · intro b hb
        rcases hwfs b hb with hb' | hb'
        · exact hsent b hb'
        · exact hb'
    rcases hph : st.phase with _ | _ <;>
      rcases hget : st.file[st.cursor]? with _ | raw
    · -- draining, end-of-file: residual flush and phase switch
      by_cases hbe : st.bulk_data.isEmpty
      · have hnil : st.bulk_data = [] := List.isEmpty_iff.mp hbe
        have hstep : combinedStep jl B I sleep idx st .poll
            = { st with phase := .tailing, last_flush := st.now } := by
          simp [combinedStep, hph, hget, hbe]
        rw [hstep]
        exact ⟨hc, hcons, hpar, ⟨br, hbulk⟩, hsent⟩
      · have hstep : combinedStep jl B I sleep idx st .poll
            = { st with
                phase := .tailing, last_flush := st.now,
                sent := st.sent ++ [(.residual, st.bulk_data)],
                bulk_data := [] } := by
          simp [combinedStep, hph, hget, hbe]
        rw [hstep]
        refine ⟨hc, ?_, hpar, ⟨[], rfl⟩, ?_⟩
        · show flatRecords (st.sent ++ [(.residual, st.bulk_data)])
              ++ recordsOf [] = _
          rw [flatRecords_append, flatRecords_single, recordsOf_nil,
            List.append_nil]
          exact hcons
        · intro b hb
          simp only [List.mem_append, List.mem_singleton] at hb
          rcases hb with hb | hb
          · exact hsent b hb
          · exact ⟨br, by rw [hb]; exact hbulk⟩
    · -- draining, line available
      have hstep : combinedStep jl B I sleep idx st .poll
          = combined_line_body jl B I idx { st with cursor := st.cursor + 1 } raw := by
        simp [combinedStep, hph, hget]
      rw [hstep]
      exact hline raw hget
    · -- tailing, end-of-file: idle sleep and idle interval check
      by_cases hfl : st.bulk_data.isEmpty = false
        ∧ I ≤ st.now + sleep - st.last_flush
      · have hstep : combinedStep jl B I sleep idx st .poll
            = { st with
                now := st.now + sleep,
                sent := st.sent ++ [(.interval, st.bulk_data)],
                bulk_data := [], last_flush := st.now + sleep } := by
          simp [combinedStep, hph, hget, hfl.1, hfl.2]
        rw [hstep]
        refine ⟨hc, ?_, hpar, ⟨[], rfl⟩, ?_⟩
        · show flatRecords (st.sent ++ [(.interval, st.bulk_data)])
              ++ recordsOf [] = _
          rw [flatRecords_append, flatRecords_single, recordsOf_nil,
            List.append_nil]
          exact hcons
        · intro b hb
          simp only [List.mem_append, List.mem_singleton] at hb
          rcases hb with hb | hb
          · exact hsent b hb
          · exact ⟨br, by rw [hb]; exact hbulk⟩
      · have hstep : combinedStep jl B I sleep idx st .poll
            = { st with now := st.now + sleep } := by
          unfold combinedStep
          rw [hph, hget]
          dsimp only
          rw [if_neg hfl]
        rw [hstep]
        exact ⟨hc, hcons, hpar, ⟨br, hbulk⟩, hsent⟩
    · -- tailing, line available
      have hstep : combinedStep jl B I sleep idx st .poll
          = combined_line_body jl B I idx { st with cursor := st.cursor + 1 } raw := by
        simp [combinedStep, hph, hget]
      rw [hstep]
      exact hline raw hget

/-- The invariant holds after every combined run. -/
lemma combined_run_inv (jl : String → LoadResult) (B I sleep : Nat)
    (idx : String) (initLines : List String) (events : List Ev) :
    CombI jl idx (combined_export_log_to_opensearch jl B I sleep idx
      initLines events) := by
  unfold combined_export_log_to_opensearch
  apply foldl_induction (CombI jl idx)
  · intro s a hs
    exact combined_step_inv jl B I sleep idx s a hs
  · exact ⟨Nat.zero_le _, by simp [combInit, flatRecords, recordsOf],
      rfl, ⟨[], rfl⟩, by intro b hb; cases hb⟩

/-- The file grows only by the appended lines, in order. -/
lemma combined_run_file (jl : String → LoadResult) (B I sleep : Nat)
    (idx : String) :
    ∀ (events : List Ev) (st : CombState),
      (events.foldl (combinedStep jl B I sleep idx) st).file
        = st.file ++ appendsOf events := by
  intro events
  induction events with
  | nil => intro st; simp [appendsOf]
  | cons ev rest ih =>
    intro st
    rw [List.foldl_cons]
    cases ev with
    | append l =>
      rw [ih]
      have h1 : (combinedStep jl B I sleep idx st (.append l)).file
          = st.file ++ [l] := rfl
      have h2 : appendsOf (Ev.append l :: rest) = l :: appendsOf rest := by
        simp [appendsOf, List.filterMap_cons]
      rw [h1, h2, List.append_assoc]
      rfl
    | advance d =>
      rw [ih]
      have h2 : appendsOf (Ev.advance d :: rest) = appendsOf rest := by
        simp [appendsOf, List.filterMap_cons]
      rw [h2]
      rfl
    | poll =>
      rw [ih]
      have hfl : (combinedStep jl B I sleep idx st .poll).file = st.file := by
        unfold combinedStep
        rcases hph : st.phase <;>
          rcases hget : st.file[st.cursor]? with _ | raw <;> dsimp only
        · split <;> rfl
        · exact (combined_line_body_facts jl B I idx _ raw).1
        · split <;> rfl
        · exact (combined_line_body_facts jl B I idx _ raw).1
      have h2 : appendsOf (Ev.poll :: rest) = appendsOf rest := by
        simp [appendsOf, List.filterMap_cons]
      rw [hfl, h2]

/-- Inductive invariant of the continuous machine: the parser receives
exactly the trailing-newline-stripped form of every line read (blank or
not); the processed counter counts exactly the successful parses;
everything sent plus everything buffered is exactly the successful parses
in order; and the buffer and every sent payload are well-formed
header/record alternations. -/
def ContI (jl : String → LoadResult) (idx : String) (st : ContState) : Prop :=
  st.parsed = st.read.map rstrip_newline ∧
  st.processed
    = st.parsed.countP (fun t => (parse_log_line jl t).isSome) ∧
  flatRecords st.sent ++ recordsOf st.bulk_data
    = st.parsed.filterMap (parse_log_line jl) ∧
  (∃ r, st.bulk_data = mkBulk idx r) ∧
  (∀ b ∈ st.sent, ∃ r, b.2 = mkBulk idx r)

/-- One step of the continuous machine preserves the invariant. -/
lemma continuous_step_inv (jl : String → LoadResult) (B I sleep : Nat)
    (idx : String) (st : ContState) (ev : Ev) (h : ContI jl idx st) :
    ContI jl idx (continuousStep jl B I sleep idx st ev) := by
  obtain ⟨hmap, hcnt, hcons, ⟨br, hbulk⟩, hsent⟩ := h
  cases ev with
  | append l => exact ⟨hmap, hcnt, hcons, ⟨br, hbulk⟩, hsent⟩
  | advance d => exact ⟨hmap, hcnt, hcons, ⟨br, hbulk⟩, hsent⟩
  | poll =>
    cases hp : st.pending with
    | nil =>
      have hstep : continuousStep jl B I sleep idx st .poll
          = { st with now := st.now + sleep } := by
        unfold continuousStep
        rw [hp]
      rw [hstep]
      exact ⟨hmap, hcnt, hcons, ⟨br, hbulk⟩, hsent⟩
    | cons l rest =>
      have hstep : continuousStep jl B I sleep idx st .poll
          = continuous_line_body jl B I idx { st with pending := rest } l := by
        unfold continuousStep
        rw [hp]
      rw [hstep]
      cases hpl : parse_log_line jl (rstrip_newline l) with
      | none =>
        have hb : continuous_line_body jl B I idx
              { st with pending := rest } l
            = { st with
                pending := rest, read := st.read ++ [l],
                parsed := st.parsed ++ [rstrip_newline l] } := by
          unfold continuous_line_body
          rw [hpl]
        rw [hb]
        refine ⟨?_, ?_, ?_, ⟨br, hbulk⟩, hsent⟩
        · show st.parsed ++ [rstrip_newline l]
            = (st.read ++ [l]).map rstrip_newline
          rw [List.map_append, hmap]
          rfl
        · show st.processed = (st.parsed ++ [rstrip_newline l]).countP _
          rw [List.countP_append, hcnt]
          simp [List.countP_cons, hpl]
        · show flatRecords st.sent ++ recordsOf st.bulk_data
            = (st.parsed ++ [rstrip_newline l]).filterMap (parse_log_line jl)
          rw [List.filterMap_append, hcons]
          simp [List.filterMap, hpl]
      | some e =>
        have hparsed : st.parsed ++ [rstrip_newline l]
            = (st.read ++ [l]).map rstrip_newline := by
          rw [List.map_append, hmap]
          rfl
        have hcnt2 : st.processed + 1
            = (st.parsed ++ [rstrip_newline l]).countP
                (fun t => (parse_log_line jl t).isSome) := by
          rw [List.countP_append, hcnt]
          simp [List.countP_cons, hpl]
        have hfm : (st.parsed ++ [rstrip_newline l]).filterMap
              (parse_log_line jl)
            = st.parsed.filterMap (parse_log_line jl) ++ [e] := by
          rw [List.filterMap_append]
          simp [List.filterMap, hpl]
        by_cases hflush : (st.processed + 1) % B = 0
        · have hb : continuous_line_body jl B I idx
                { st with pending := rest } l
              = { st with
                  pending := rest, read := st.read ++ [l],
                  parsed := st.parsed ++ [rstrip_newline l],
                  bulk_data := [], processed := st.processed + 1,
                  sent := st.sent
                    ++ [(.count, add_to_bulk_data st.bulk_data e idx)],
                  last_flush := st.now } := by
            unfold continuous_line_body
            rw [hpl]
            dsimp only
            rw [if_pos hflush]
          rw [hb]
          refine ⟨hparsed, hcnt2, ?_, ⟨[], rfl⟩, ?_⟩
          · show flatRecords (st.sent
                ++ [(.count, add_to_bulk_data st.bulk_data e idx)])
                ++ recordsOf [] = _
            rw [flatRecords_append, flatRecords_single, recordsOf_nil,
              List.append_nil, recordsOf_add, hfm, ← List.append_assoc,
              hcons]
          · intro b hb
            simp only [List.mem_append, List.mem_singleton] at hb
            rcases hb with hb | hb
            · exact hsent b hb
            · exact ⟨br ++ [e], by rw [hb, hbulk]; exact mkBulk_add idx br e⟩
        · by_cases hint : (add_to_bulk_data st.bulk_data e idx).isEmpty = false
              ∧ I ≤ st.now - st.last_flush
          · have hb : continuous_line_body jl B I idx
                  { st with pending := rest } l
                = { st with
                    pending := rest, read := st.read ++ [l],
                    parsed := st.parsed ++ [rstrip_newline l],
                    bulk_data := [], processed := st.processed + 1,
                    sent := st.sent
                      ++ [(.interval, add_to_bulk_data st.bulk_data e idx)],
                    last_flush := st.now } := by
              unfold continuous_line_body
              rw [hpl]
              dsimp only
              rw [if_neg hflush, if_pos hint]
            rw [hb]
            refine ⟨hparsed, hcnt2, ?_, ⟨[], rfl⟩, ?_⟩
            · show flatRecords (st.sent
                  ++ [(.interval, add_to_bulk_data st.bulk_data e idx)])
                  ++ recordsOf [] = _
              rw [flatRecords_append, flatRecords_single, recordsOf_nil,
                List.append_nil, recordsOf_add, hfm, ← List.append_assoc,
                hcons]
            · intro b hb
              simp only [List.mem_append, List.mem_singleton] at hb
              rcases hb with hb | hb
              · exact hsent b hb
              · exact ⟨br ++ [e],
                  by rw [hb, hbulk]; exact mkBulk_add idx br e⟩
          · have hb : continuous_line_body jl B I idx
                  { st with pending := rest } l
                = { st with
                    pending := rest, read := st.read ++ [l],
                    parsed := st.parsed ++ [rstrip_newline l],
                    bulk_data := add_to_bulk_data st.bulk_data e idx,
                    processed := st.processed + 1 } := by
              unfold continuous_line_body
              rw [hpl]
              dsimp only
              rw [if_neg hflush, if_neg hint]
            rw [hb]
            refine ⟨hparsed, hcnt2, ?_,
              ⟨br ++ [e], by rw [hbulk]; exact mkBulk_add idx br e⟩, hsent⟩
            show flatRecords st.sent
                ++ recordsOf (add_to_bulk_data st.bulk_data e idx) = _
            rw [recordsOf_add, hfm, ← List.append_assoc, hcons]

/-- The invariant holds after every continuous run. -/
lemma continuous_run_inv (jl : String → LoadResult) (B I sleep : Nat)
    (idx : String) (events : List Ev) :
    ContI jl idx (continuous_export_log_to_opensearch jl B I sleep idx
      events) := by
  unfold continuous_export_log_to_opensearch
  apply foldl_induction (ContI jl idx)
  · intro s a hs
    exact continuous_step_inv jl B I sleep idx s a hs
  · exact ⟨rfl, rfl, rfl, ⟨[], rfl⟩, by intro b hb; cases hb⟩

/-- Idle polls in continuous mode: with nothing pending, each poll only
sleeps inside the generator; the consumer body never runs and no flush
check of any kind happens, however much time passes. -/
lemma continuous_idle_polls (jl : String → LoadResult) (B I sleep : Nat)
    (idx : String) :
    ∀ (k : Nat) (st : ContState), st.pending = [] →
      (List.replicate k Ev.poll).foldl (continuousStep jl B I sleep idx) st
        = { st with now := st.now + k * sleep } := by
  intro k
  induction k with
  | zero => intro st h; simp
  | succ k ih =>
    intro st h
    rw [List.replicate_succ, List.foldl_cons]
    have hstep : continuousStep jl B I sleep idx st .poll
        = { st with now := st.now + sleep } := by
      unfold continuousStep
      rw [h]
    rw [hstep, ih _ (by exact h)]
    show ({ st with now := st.now + sleep + k * sleep } : ContState) = _
    have : st.now + sleep + k * sleep = st.now + (k + 1) * sleep := by ring
    rw [this]

/-!  Claim C1. -/

/-- Number of writer appends that occur strictly after the drain phase has
completed (i.e. while the machine is already tailing), along a combined
trace. -/
def appendsAfterDrainCount (jl : String → LoadResult) (B I sleep : Nat)
    (idx : String) (initLines : List String) (events : List Ev) : Nat :=
  (events.foldl
    (fun acc ev =>
      (combinedStep jl B I sleep idx acc.1 ev,
        acc.2 +
          match ev, acc.1.phase with
          | .append _, .tailing => 1
          | _, _ => 0))
    ((combInit initLines : CombState), (0 : Nat))).2

/-- C1, counterexample to the claimed arithmetic: with pre-open content
`["1"]` and one line appended while the drain is still running, the sink
receives 2 records, but (pre-open line count) + (lines appended strictly
after the drain completes) = 1 + 0 = 1.  A line appended after open but
before the drain reaches end-of-file is picked up by the drain pass, so it
is counted in neither of the claim's two summands. -/
theorem C1_formula_counterexample :
    (flatRecords (combined_export_log_to_opensearch json_loads_impl 100 5 1
        "logs" ["1"] [.append "2", .poll, .poll, .poll]).sent).length = 2 ∧
    (["1"].filterMap (extractRecord json_loads_impl)).length = 1 ∧
    appendsAfterDrainCount json_loads_impl 100 5 1 "logs" ["1"]
        [.append "2", .poll, .poll, .poll] = 0 ∧
    (flatRecords (combined_export_log_to_opensearch json_loads_impl 100 5 1
        "logs" ["1"] [.append "2", .poll, .poll, .poll]).sent).length
      ≠ (["1"].filterMap (extractRecord json_loads_impl)).length
        + appendsAfterDrainCount json_loads_impl 100 5 1 "logs" ["1"]
            [.append "2", .poll, .poll, .poll] := by
  decide

/-- C1 (amended): in combined mode every eligible (non-blank, parseable)
line of the file — pre-open content and appended lines alike — is
delivered or buffered exactly once, in order: once the single shared
cursor has reached end-of-file, the records sent plus the records still
buffered are exactly the parses of (pre-open lines ++ all appended lines).
No line is double-counted between the drain pass and the tail pass and
none is skipped; lines appended during the drain are read by the drain
pass, lines appended after it by the tail pass. -/
theorem C1_combined_exactly_once (jl : String → LoadResult) (B I sleep : Nat)
    (idx : String) (initLines : List String) (events : List Ev)
    (h : (combined_export_log_to_opensearch jl B I sleep idx initLines
        events).cursor
      = (combined_export_log_to_opensearch jl B I sleep idx initLines
        events).file.length) :
    flatRecords (combined_export_log_to_opensearch jl B I sleep idx
        initLines events).sent
      ++ recordsOf (combined_export_log_to_opensearch jl B I sleep idx
        initLines events).bulk_data
    = (initLines ++ appendsOf events).filterMap (extractRecord jl) := by
  obtain ⟨_, hcons, _, _, _⟩ := combined_run_inv jl B I sleep idx initLines
    events
  have hfile : (combined_export_log_to_opensearch jl B I sleep idx initLines
      events).file = initLines ++ appendsOf events :=
    combined_run_file jl B I sleep idx events (combInit initLines)
  rw [hcons, h, List.take_length, hfile]

/-- Witness for the amended C1 on a trace that drains one pre-open line,
switches to tailing, and then reads one appended line to quiescence. -/
theorem C1_combined_exactly_once_witness :
    ((combined_export_log_to_opensearch json_loads_impl 100 5 1 "logs"
        ["1"] [.poll, .poll, .append "2", .poll, .poll]).cursor
      = (combined_export_log_to_opensearch json_loads_impl 100 5 1 "logs"
        ["1"] [.poll, .poll, .append "2", .poll, .poll]).file.length) ∧
    (flatRecords (combined_export_log_to_opensearch json_loads_impl 100 5 1
        "logs" ["1"] [.poll, .poll, .append "2", .poll, .poll]).sent
      ++ recordsOf (combined_export_log_to_opensearch json_loads_impl 100 5
        1 "logs" ["1"] [.poll, .poll, .append "2", .poll, .poll]).bulk_data
    = (["1"] ++ appendsOf [.poll, .poll, .append "2", .poll, .poll]).filterMap
        (extractRecord json_loads_impl)) :=
  ⟨by decide,
    C1_combined_exactly_once json_loads_impl 100 5 1 "logs" ["1"]
      [.poll, .poll, .append "2", .poll, .poll] (by decide)⟩

/-!  Claim C4. -/

/-- C4, counterexample: with one pre-open line and batch size 100, the
poll that hits end-of-file in the drain phase sends the partial batch to
the sink (one residual-triggered call) and the accumulator enters the
tailing phase empty — the in-progress batch does not survive the
transition unflushed. -/
theorem C4_transition_flush_counterexample :
    (combined_export_log_to_opensearch json_loads_impl 100 5 1 "logs" ["1"]
        [.poll, .poll]).phase = Phase.tailing ∧
    (combined_export_log_to_opensearch json_loads_impl 100 5 1 "logs" ["1"]
        [.poll, .poll]).sent.map Prod.fst = [Trigger.residual] ∧
    (combined_export_log_to_opensearch json_loads_impl 100 5 1 "logs" ["1"]
        [.poll, .poll]).sent.length = 1 ∧
    (combined_export_log_to_opensearch json_loads_impl 100 5 1 "logs" ["1"]
        [.poll, .poll]).bulk_data.length = 0 ∧
    (combined_export_log_to_opensearch json_loads_impl 100 5 1 "logs" ["1"]
        [.poll, .poll]).processed = 1 := by
  decide

/-- C4 (amended): at the drain→tail boundary the two phases do share the
one running processed-line counter (it is not reset) and the one
accumulator variable, but a batch in progress at end-of-file is
force-flushed as a residual sink call at the transition rather than
carried over: after the transition poll the phase is tailing, the counter
is unchanged, the accumulator is empty, the sent list gained exactly the
residual batch when the buffer was non-empty (and nothing otherwise), and
the flush timer is reset to the current time. -/
theorem C4_combined_transition (jl : String → LoadResult) (B I sleep : Nat)
    (idx : String) (st : CombState) (hph : st.phase = .draining)
    (hget : st.file[st.cursor]? = none) :
    (combinedStep jl B I sleep idx st .poll).phase = Phase.tailing ∧
    (combinedStep jl B I sleep idx st .poll).processed = st.processed ∧
    (combinedStep jl B I sleep idx st .poll).bulk_data = [] ∧
    (combinedStep jl B I sleep idx st .poll).sent
      = st.sent ++ (if st.bulk_data.isEmpty then []
          else [(.residual, st.bulk_data)]) ∧
    (combinedStep jl B I sleep idx st .poll).last_flush
      = (combinedStep jl B I sleep idx st .poll).now := by
  by_cases hbe : st.bulk_data.isEmpty
  · have hstep : combinedStep jl B I sleep idx st .poll
        = { st with phase := .tailing, last_flush := st.now } := by
      simp [combinedStep, hph, hget, hbe]
    rw [hstep]
    exact ⟨rfl, rfl, List.isEmpty_iff.mp hbe, by simp [hbe], rfl⟩
  · have hstep : combinedStep jl B I sleep idx st .poll
        = { st with
            phase := .tailing, last_flush := st.now,
            sent := st.sent ++ [(.residual, st.bulk_data)],
            bulk_data := [] } := by
      simp [combinedStep, hph, hget, hbe]
    rw [hstep]
    exact ⟨rfl, rfl, rfl, by simp [hbe], rfl⟩

/-- Witness for the amended C4 at a concrete mid-drain state holding one
buffered record. -/
theorem C4_combined_transition_witness :
    ((⟨["1"], 1, .draining, [.action "logs", .record (.num 1)], 1, 0, 0,
        [], ["1"]⟩ : CombState).phase = Phase.draining ∧
      (["1"] : List String)[(1 : Nat)]? = none) ∧
    ((combinedStep json_loads_impl 100 5 1 "logs"
        ⟨["1"], 1, .draining, [.action "logs", .record (.num 1)], 1, 0, 0,
          [], ["1"]⟩ .poll).phase = Phase.tailing ∧
      (combinedStep json_loads_impl 100 5 1 "logs"
        ⟨["1"], 1, .draining, [.action "logs", .record (.num 1)], 1, 0, 0,
          [], ["1"]⟩ .poll).processed
        = (⟨["1"], 1, .draining, [.action "logs", .record (.num 1)], 1, 0,
            0, [], ["1"]⟩ : CombState).processed ∧
      (combinedStep json_loads_impl 100 5 1 "logs"
        ⟨["1"], 1, .draining, [.action "logs", .record (.num 1)], 1, 0, 0,
          [], ["1"]⟩ .poll).bulk_data = [] ∧
      (combinedStep json_loads_impl 100 5 1 "logs"
        ⟨["1"], 1, .draining, [.action "logs", .record (.num 1)], 1, 0, 0,
          [], ["1"]⟩ .poll).sent
        = (⟨["1"], 1, .draining, [.action "logs", .record (.num 1)], 1, 0,
            0, [], ["1"]⟩ : CombState).sent
          ++ (if (⟨["1"], 1, .draining,
              [.action "logs", .record (.num 1)], 1, 0, 0, [], ["1"]⟩ :
              CombState).bulk_data.isEmpty then []
            else [(.residual, (⟨["1"], 1, .draining,
              [.action "logs", .record (.num 1)], 1, 0, 0, [], ["1"]⟩ :
              CombState).bulk_data)]) ∧
      (combinedStep json_loads_impl 100 5 1 "logs"
        ⟨["1"], 1, .draining, [.action "logs", .record (.num 1)], 1, 0, 0,
          [], ["1"]⟩ .poll).last_flush
        = (combinedStep json_loads_impl 100 5 1 "logs"
          ⟨["1"], 1, .draining, [.action "logs", .record (.num 1)], 1, 0,
            0, [], ["1"]⟩ .poll).now) :=
  ⟨⟨rfl, rfl⟩,
    C4_combined_transition json_loads_impl 100 5 1 "logs"
      ⟨["1"], 1, .draining, [.action "logs", .record (.num 1)], 1, 0, 0,
        [], ["1"]⟩ rfl rfl⟩

/-!  Claim C3. -/

/-- C3 (the code contradicts it in continuous mode): with batch size 2,
flush interval 5 and idle poll interval 1, one record is buffered, and
then however many idle polls follow — with `k` time units elapsing, far
beyond flush interval plus one idle poll — the buffered batch is never
flushed: `tail_log_lines` sleeps inside the generator on idle polls, so
the consumer loop body containing the only interval check never runs.
The sink call list stays empty while the buffer still holds the record. -/
theorem C3_continuous_idle_never_flushes (k : Nat) :
    (continuous_export_log_to_opensearch json_loads_impl 2 5 1 "logs"
        ([.append "7", .poll] ++ List.replicate k .poll)).sent = [] ∧
    (continuous_export_log_to_opensearch json_loads_impl 2 5 1 "logs"
        ([.append "7", .poll] ++ List.replicate k .poll)).bulk_data.length
      = 2 ∧
    (continuous_export_log_to_opensearch json_loads_impl 2 5 1 "logs"
        ([.append "7", .poll] ++ List.replicate k .poll)).now = k ∧
    (continuous_export_log_to_opensearch json_loads_impl 2 5 1 "logs"
        ([.append "7", .poll] ++ List.replicate k .poll)).last_flush
      = 0 := by
  have h0 : [Ev.append "7", Ev.poll].foldl
        (continuousStep json_loads_impl 2 5 1 "logs") contInit
      = ⟨[], ["7"], [.action "logs", .record (.num 7)], 1, 0, 0, [],
          ["7"]⟩ := rfl
  have hrun : continuous_export_log_to_opensearch json_loads_impl 2 5 1
        "logs" ([.append "7", .poll] ++ List.replicate k .poll)
      = { (⟨[], ["7"], [.action "logs", .record (.num 7)], 1, 0, 0, [],
          ["7"]⟩ : ContState) with now := 0 + k * 1 } := by
    unfold continuous_export_log_to_opensearch
    rw [List.foldl_append, h0,
      continuous_idle_polls json_loads_impl 2 5 1 "logs" k _ rfl]
  rw [hrun]
  refine ⟨rfl, rfl, by simp, rfl⟩

/-!  Claim C6. -/

/-- Every string the combined loops hand to the parser is non-empty. -/
lemma mem_nonBlankTrims_ne (ls : List String) (t : String)
    (h : t ∈ nonBlankTrims ls) : t ≠ "" := by
  unfold nonBlankTrims at h
  obtain ⟨raw, _, hr⟩ := List.mem_filterMap.mp h
  by_cases hb : pystrip raw = ""
  · rw [if_pos hb] at hr
    cases hr
  · rw [if_neg hb] at hr
    cases hr
    exact hb

/-- C6, counterexample: in continuous mode a whitespace-only appended
line IS forwarded to the parser — `tail_log_lines` strips only the
trailing newline and the loop body calls `parse_log_line` without any
blank check — although it still fails to parse, so it is neither counted
nor batched. -/
theorem C6_blank_forwarded_counterexample :
    (continuous_export_log_to_opensearch json_loads_impl 2 5 1 "logs"
        [.append "   ", .poll]).parsed = ["   "] ∧
    pystrip "   " = "" ∧
    (continuous_export_log_to_opensearch json_loads_impl 2 5 1 "logs"
        [.append "   ", .poll]).processed = 0 ∧
    (continuous_export_log_to_opensearch json_loads_impl 2 5 1 "logs"
        [.append "   ", .poll]).bulk_data = [] := by
  refine ⟨rfl, rfl, rfl, rfl⟩

/-- C6 (amended): in one-time mode a line that is blank after stripping
is dropped before the parser — deleting it from the input leaves the
whole run unchanged — and in combined mode every string forwarded to the
parser is non-blank.  In continuous mode, however, every line read is
forwarded to the parser after only trailing-newline stripping (blank ones
included); the processed counter still counts only the lines the parser
accepted, so blank lines are never counted and never batched in any
mode (whitespace-only strings are a JSON decode error). -/
theorem C6_blank_line_handling :
    (∀ (jl : String → LoadResult) (B : Nat) (idx : String)
        (l1 : List String) (b : String) (l2 : List String),
        pystrip b = "" →
        export_log_to_opensearch jl B idx (l1 ++ b :: l2)
          = export_log_to_opensearch jl B idx (l1 ++ l2)) ∧
    (∀ (jl : String → LoadResult) (B I sleep : Nat) (idx : String)
        (initLines : List String) (events : List Ev),
        ∀ t ∈ (combined_export_log_to_opensearch jl B I sleep idx initLines
            events).parsed, t ≠ "") ∧
    (∀ (jl : String → LoadResult) (B I sleep : Nat) (idx : String)
        (events : List Ev),
        (continuous_export_log_to_opensearch jl B I sleep idx events).parsed
          = (continuous_export_log_to_opensearch jl B I sleep idx
              events).read.map rstrip_newline ∧
        (continuous_export_log_to_opensearch jl B I sleep idx
            events).processed
          = (continuous_export_log_to_opensearch jl B I sleep idx
              events).parsed.countP
              (fun t => (parse_log_line jl t).isSome)) := by
  refine ⟨?_, ?_, ?_⟩
  · intro jl B idx l1 b l2 hb
    have hy : yield_log_lines (l1 ++ b :: l2)
        = yield_log_lines (l1 ++ l2) := by
      unfold yield_log_lines
      simp [List.filter_append, hb]
    unfold export_log_to_opensearch
    rw [hy]
  · intro jl B I sleep idx initLines events t ht
    obtain ⟨_, _, hpar, _, _⟩ := combined_run_inv jl B I sleep idx initLines
      events
    rw [hpar] at ht
    exact mem_nonBlankTrims_ne _ t ht
  · intro jl B I sleep idx events
    obtain ⟨hmap, hcnt, _, _, _⟩ := continuous_run_inv jl B I sleep idx
      events
    exact ⟨hmap, hcnt⟩

/-- Witness for the amended C6: deleting a whitespace-only line from a
one-time input leaves the run unchanged; combined-mode parser inputs on a
blank-containing file are non-blank; a continuous run's parser inputs are
its read lines less their trailing newlines, with processed counting the
parser successes. -/
theorem C6_blank_line_handling_witness :
    (pystrip " " = "" ∧
      export_log_to_opensearch json_loads_impl 2 "logs"
          (["1"] ++ " " :: ["2"])
        = export_log_to_opensearch json_loads_impl 2 "logs"
            (["1"] ++ ["2"])) ∧
    ("1" ∈ (combined_export_log_to_opensearch json_loads_impl 2 5 1 "logs"
        ["1", " "] [.poll, .poll, .poll]).parsed ∧ "1" ≠ "") ∧
    ((continuous_export_log_to_opensearch json_loads_impl 2 5 1 "logs"
          [.append " ", .poll]).parsed
        = (continuous_export_log_to_opensearch json_loads_impl 2 5 1 "logs"
            [.append " ", .poll]).read.map rstrip_newline ∧
      (continuous_export_log_to_opensearch json_loads_impl 2 5 1 "logs"
          [.append " ", .poll]).processed
        = (continuous_export_log_to_opensearch json_loads_impl 2 5 1 "logs"
            [.append " ", .poll]).parsed.countP
            (fun t => (parse_log_line json_loads_impl t).isSome)) :=
  ⟨⟨rfl, C6_blank_line_handling.1 json_loads_impl 2 "logs" ["1"] " " ["2"]
      rfl⟩,
    ⟨by decide,
      C6_blank_line_handling.2.1 json_loads_impl 2 5 1 "logs" ["1", " "]
        [.poll, .poll, .poll] "1" (by decide)⟩,
    C6_blank_line_handling.2.2 json_loads_impl 2 5 1 "logs"
      [.append " ", .poll]⟩

/-!  Claim C8. -/

/-- C8: on a mid-stream read error, one-time mode still delivers
everything it had read — the `finally` clause flushes the remaining
buffer, so the sent records of an aborted one-time run are exactly the
parses of the lines read before the abort — whereas the continuous and
combined `except` handlers flush nothing, so what those runs have sent at
any abort point falls short of the records read by exactly the contents
of the still-buffered batch (which is lost); the final conjunct exhibits
a run aborted with a non-empty buffer and no sink call at all. -/
theorem C8_abort_flush_asymmetry :
    (∀ (jl : String → LoadResult) (B : Nat) (idx : String)
        (fileLines : List String) (k : Nat),
        flatRecords (export_log_aborted jl B idx fileLines k).sent
          = ((yield_log_lines fileLines).take k).filterMap
              (parse_log_line jl)) ∧
    (∀ (jl : String → LoadResult) (B I sleep : Nat) (idx : String)
        (events : List Ev),
        flatRecords (continuous_export_log_to_opensearch jl B I sleep idx
              events).sent
            ++ recordsOf (continuous_export_log_to_opensearch jl B I sleep
              idx events).bulk_data
          = (continuous_export_log_to_opensearch jl B I sleep idx
              events).parsed.filterMap (parse_log_line jl)) ∧
    (∀ (jl : String → LoadResult) (B I sleep : Nat) (idx : String)
        (initLines : List String) (events : List Ev),
        flatRecords (combined_export_log_to_opensearch jl B I sleep idx
              initLines events).sent
            ++ recordsOf (combined_export_log_to_opensearch jl B I sleep
              idx initLines events).bulk_data
          = ((combined_export_log_to_opensearch jl B I sleep idx initLines
              events).file.take
              (combined_export_log_to_opensearch jl B I sleep idx initLines
                events).cursor).filterMap (extractRecord jl)) ∧
    ((continuous_export_log_to_opensearch json_loads_impl 3 5 1 "logs"
        [.append "8", .poll]).bulk_data.length = 2 ∧
      (continuous_export_log_to_opensearch json_loads_impl 3 5 1 "logs"
        [.append "8", .poll]).sent = []) := by
  refine ⟨?_, ?_, ?_, rfl, rfl⟩
  · intro jl B idx fileLines k
    unfold export_log_aborted
    rw [export_log_finally_flat]
    have h := (export_fold_facts jl B idx
      ((yield_log_lines fileLines).take k) ⟨[], 0, [], []⟩).1
    simpa using h
  · intro jl B I sleep idx events
    exact (continuous_run_inv jl B I sleep idx events).2.2.1
  · intro jl B I sleep idx initLines events
    exact (combined_run_inv jl B I sleep idx initLines events).2.1

/-!  Claim C9. -/

lemma mkBulk_length (i : String) (rs : List Json) :
    (mkBulk i rs).length = 2 * rs.length := by
  induction rs with
  | nil => rfl
  | cons r t ih =>
    show (mkBulk i t).length + 1 + 1 = 2 * (t.length + 1)
    omega

lemma mkBulk_positions (i : String) :
    ∀ (rs : List Json) (k : Nat) (r : Json), rs[k]? = some r →
      (mkBulk i rs)[2 * k]? = some (.action i) ∧
      (mkBulk i rs)[2 * k + 1]? = some (.record r) := by
  intro rs
  induction rs with
  | nil => intro k r h; simp at h
  | cons a t ih =>
    intro k r h
    cases k with
    | zero =>
      simp only [List.getElem?_cons_zero, Option.some.injEq] at h
      subst h
      exact ⟨by simp [mkBulk], by simp [mkBulk]⟩
    | succ k =>
      rw [List.getElem?_cons_succ] at h
      obtain ⟨h1, h2⟩ := ih k r h
      have e1 : 2 * (k + 1) = 2 * k + 1 + 1 := by ring
      have e2 : 2 * (k + 1) + 1 = 2 * k + 1 + 1 + 1 := by ring
      constructor
      · rw [e1]
        show (BulkItem.action i :: BulkItem.record a
            :: mkBulk i t)[2 * k + 1 + 1]? = some (.action i)
        rw [List.getElem?_cons_succ, List.getElem?_cons_succ]
        exact h1
      · rw [e2]
        show (BulkItem.action i :: BulkItem.record a
            :: mkBulk i t)[2 * k + 1 + 1 + 1]? = some (.record r)
        rw [List.getElem?_cons_succ, List.getElem?_cons_succ]
        exact h2

/-- A bulk-shaped payload recovers its record list. -/
lemma mkBulk_records (i : String) (rs : List Json) :
    recordsOf (mkBulk i rs) = rs := recordsOf_mkBulk i rs

/-- The one-time run only ever sends well-formed bulk payloads. -/
lemma export_run_wf (jl : String → LoadResult) (B : Nat) (idx : String)
    (fileLines : List String) :
    ∀ b ∈ (export_log_to_opensearch jl B idx fileLines).sent,
      ∃ r, b.2 = mkBulk idx r := by
  have hfold :
      (∃ r, ((yield_log_lines fileLines).foldl (export_log_body jl B idx)
          ⟨[], 0, [], []⟩).bulk_data = mkBulk idx r) ∧
      ∀ b ∈ ((yield_log_lines fileLines).foldl (export_log_body jl B idx)
          ⟨[], 0, [], []⟩).sent, ∃ r, b.2 = mkBulk idx r := by
    apply foldl_induction
      (fun st : OneTimeState => (∃ r, st.bulk_data = mkBulk idx r) ∧
        ∀ b ∈ st.sent, ∃ r, b.2 = mkBulk idx r)
    · rintro s a ⟨⟨r, hr⟩, hs⟩
      unfold export_log_body
      cases hp : parse_log_line jl a with
      | none => exact ⟨⟨r, hr⟩, hs⟩
      | some e =>
        dsimp only
        by_cases hc : (s.processed + 1) % B = 0
        · rw [if_pos hc]
          refine ⟨⟨[], rfl⟩, ?_⟩
          intro b hb
          simp only [List.mem_append, List.mem_singleton] at hb
          rcases hb with hb | hb
          · exact hs b hb
          · exact ⟨r ++ [e], by rw [hb, hr]; exact mkBulk_add idx r e⟩
        · rw [if_neg hc]
          exact ⟨⟨r ++ [e], by rw [hr]; exact mkBulk_add idx r e⟩, hs⟩
    · exact ⟨⟨[], rfl⟩, by intro b hb; cases hb⟩
  intro b hb
  unfold export_log_to_opensearch export_log_finally at hb
  by_cases hbe : ((yield_log_lines fileLines).foldl
      (export_log_body jl B idx) ⟨[], 0, [], []⟩).bulk_data.isEmpty
  · rw [if_pos hbe] at hb
    exact hfold.2 b hb
  · rw [if_neg hbe] at hb
    simp only [List.mem_append, List.mem_singleton] at hb
    rcases hb with hb | hb
    · exact hfold.2 b hb
    · obtain ⟨r, hr⟩ := hfold.1
      exact ⟨r, by rw [hb]; exact hr⟩

/-- C9: every list delivered to the sink, in every mode, is a strict
header/record alternation for the configured index: it equals
`mkBulk idx recs` for its own record list `recs`, so it has even length
`2 * recs.length` and for every `k` the item at position `2k` is the
action header and the item at position `2k + 1` is the `k`-th record in
read order. -/
theorem C9_bulk_payload_framing :
    (∀ (jl : String → LoadResult) (B : Nat) (idx : String)
        (fileLines : List String),
        ∀ b ∈ (export_log_to_opensearch jl B idx fileLines).sent,
          ∃ recs, b.2 = mkBulk idx recs ∧ recordsOf b.2 = recs ∧
            b.2.length = 2 * recs.length ∧
            ∀ (k : Nat) (r : Json), recs[k]? = some r →
              b.2[2 * k]? = some (.action idx) ∧
              b.2[2 * k + 1]? = some (.record r)) ∧
    (∀ (jl : String → LoadResult) (B I sleep : Nat) (idx : String)
        (events : List Ev),
        ∀ b ∈ (continuous_export_log_to_opensearch jl B I sleep idx
            events).sent,
          ∃ recs, b.2 = mkBulk idx recs ∧ recordsOf b.2 = recs ∧
            b.2.length = 2 * recs.length ∧
            ∀ (k : Nat) (r : Json), recs[k]? = some r →
              b.2[2 * k]? = some (.action idx) ∧
              b.2[2 * k + 1]? = some (.record r)) ∧
    (∀ (jl : String → LoadResult) (B I sleep : Nat) (idx : String)
        (initLines : List String) (events : List Ev),
        ∀ b ∈ (combined_export_log_to_opensearch jl B I sleep idx initLines
            events).sent,
          ∃ recs, b.2 = mkBulk idx recs ∧ recordsOf b.2 = recs ∧
            b.2.length = 2 * recs.length ∧
            ∀ (k : Nat) (r : Json), recs[k]? = some r →
              b.2[2 * k]? = some (.action idx) ∧
              b.2[2 * k + 1]? = some (.record r)) := by
  have hpack : ∀ (idx : String) (d : List BulkItem),
      (∃ r, d = mkBulk idx r) →
      ∃ recs, d = mkBulk idx recs ∧ recordsOf d = recs ∧
        d.length = 2 * recs.length ∧
        ∀ (k : Nat) (r : Json), recs[k]? = some r →
          d[2 * k]? = some (.action idx) ∧
          d[2 * k + 1]? = some (.record r) := by
    rintro idx d ⟨r, rfl⟩
    exact ⟨r, rfl, mkBulk_records idx r, mkBulk_length idx r,
      fun k x hx => mkBulk_positions idx r k x hx⟩
  refine ⟨?_, ?_, ?_⟩
  · intro jl B idx fileLines b hb
    exact hpack idx b.2 (export_run_wf jl B idx fileLines b hb)
  · intro jl B I sleep idx events b hb
    exact hpack idx b.2
      ((continuous_run_inv jl B I sleep idx events).2.2.2.2 b hb)
  · intro jl B I sleep idx initLines events b hb
    exact hpack idx b.2
      ((combined_run_inv jl B I sleep idx initLines events).2.2.2.2 b hb)

/-- Witness for C9 at a one-flush one-time run: the single sink call for
a two-record file with batch size 2 is framed as header, record, header,
record. -/
theorem C9_bulk_payload_framing_witness :
    ((Trigger.count,
        [BulkItem.action "logs", BulkItem.record (Json.num 1),
          BulkItem.action "logs", BulkItem.record (Json.num 2)])
      ∈ (export_log_to_opensearch json_loads_impl 2 "logs"
          ["1", "2"]).sent) ∧
    (∃ recs,
      (Trigger.count,
        [BulkItem.action "logs", BulkItem.record (Json.num 1),
          BulkItem.action "logs", BulkItem.record (Json.num 2)]).2
        = mkBulk "logs" recs ∧
      recordsOf (Trigger.count,
        [BulkItem.action "logs", BulkItem.record (Json.num 1),
          BulkItem.action "logs", BulkItem.record (Json.num 2)]).2 = recs ∧
      (Trigger.count,
        [BulkItem.action "logs", BulkItem.record (Json.num 1),
          BulkItem.action "logs", BulkItem.record (Json.num 2)]).2.length
        = 2 * recs.length ∧
      ∀ (k : Nat) (r : Json), recs[k]? = some r →
        (Trigger.count,
          [BulkItem.action "logs", BulkItem.record (Json.num 1),
            BulkItem.action "logs",
            BulkItem.record (Json.num 2)]).2[2 * k]?
          = some (.action "logs") ∧
        (Trigger.count,
          [BulkItem.action "logs", BulkItem.record (Json.num 1),
            BulkItem.action "logs",
            BulkItem.record (Json.num 2)]).2[2 * k + 1]?
          = some (.record r)) :=
  ⟨by exact List.mem_singleton.mpr rfl,
    C9_bulk_payload_framing.1 json_loads_impl 2 "logs" ["1", "2"]
      (Trigger.count,
        [BulkItem.action "logs", BulkItem.record (Json.num 1),
          BulkItem.action "logs", BulkItem.record (Json.num 2)])
      (by exact List.mem_singleton.mpr rfl)⟩

/-!  Claim C5. -/

/-- A just-extended buffer is never empty. -/
lemma add_to_bulk_data_isEmpty (bd : List BulkItem) (e : Json)
    (i : String) : (add_to_bulk_data bd e i).isEmpty = false := by
  cases bd <;> rfl

/-- C5: at every per-line check point, in every mode, a count-triggered
sink call happens exactly when the process-wide running total of records
added (`processed + 1`, not the count since the last flush — the
pre-state is arbitrary, so the buffer content is unrelated to the
counter) is an exact multiple of the batch size; when both the count
condition and the interval condition hold at the same check point the
call is count-tagged, because the interval check sits in the `elif`; and
at combined mode's idle check point only the interval trigger can fire.
The statement gives the exact sink-call effect of each check point: the
one-time loop body, the continuous loop body, the (shared) combined loop
body, and combined mode's idle poll. -/
theorem C5_count_trigger_and_priority :
    (∀ (jl : String → LoadResult) (B : Nat) (idx : String)
        (st : OneTimeState) (l : String) (e : Json),
        parse_log_line jl l = some e →
        (export_log_body jl B idx st l).sent
          = st.sent ++ (if (st.processed + 1) % B = 0
              then [(.count, add_to_bulk_data st.bulk_data e idx)]
              else [])) ∧
    (∀ (jl : String → LoadResult) (B I : Nat) (idx : String)
        (st : ContState) (raw : String) (e : Json),
        parse_log_line jl (rstrip_newline raw) = some e →
        (continuous_line_body jl B I idx st raw).sent
          = st.sent ++ (if (st.processed + 1) % B = 0
              then [(.count, add_to_bulk_data st.bulk_data e idx)]
              else if I ≤ st.now - st.last_flush
                then [(.interval, add_to_bulk_data st.bulk_data e idx)]
                else [])) ∧
    (∀ (jl : String → LoadResult) (B I : Nat) (idx : String)
        (st : CombState) (raw : String) (e : Json),
        pystrip raw ≠ "" →
        parse_log_line jl (pystrip raw) = some e →
        (combined_line_body jl B I idx st raw).sent
          = st.sent ++ (if (st.processed + 1) % B = 0
              then [(.count, add_to_bulk_data st.bulk_data e idx)]
              else if I ≤ st.now - st.last_flush
                then [(.interval, add_to_bulk_data st.bulk_data e idx)]
                else [])) ∧
    (∀ (jl : String → LoadResult) (B I sleep : Nat) (idx : String)
        (st : CombState),
        st.phase = .tailing → st.file[st.cursor]? = none →
        (combinedStep jl B I sleep idx st .poll).sent
          = st.sent ++ (if st.bulk_data.isEmpty = false
                ∧ I ≤ st.now + sleep - st.last_flush
              then [(.interval, st.bulk_data)]
              else [])) := by
  refine ⟨?_, ?_, ?_, ?_⟩
  · intro jl B idx st l e hp
    unfold export_log_body
    rw [hp]
    dsimp only
    by_cases hc : (st.processed + 1) % B = 0
    · rw [if_pos hc, if_pos hc]
    · rw [if_neg hc, if_neg hc]
      exact (List.append_nil st.sent).symm
  · intro jl B I idx st raw e hp
    unfold continuous_line_body
    rw [hp]
    dsimp only
    by_cases hc : (st.processed + 1) % B = 0
    · rw [if_pos hc, if_pos hc]
    · rw [if_neg hc, if_neg hc]
      by_cases hi : I ≤ st.now - st.last_flush
      · rw [if_pos ⟨add_to_bulk_data_isEmpty st.bulk_data e idx, hi⟩,
          if_pos hi]
      · rw [if_neg (fun hand => hi hand.2), if_neg hi]
        exact (List.append_nil st.sent).symm
  · intro jl B I idx st raw e hblank hp
    unfold combined_line_body
    rw [if_neg hblank, hp]
    dsimp only
    by_cases hc : (st.processed + 1) % B = 0
    · rw [if_pos hc, if_pos hc]
    · rw [if_neg hc, if_neg hc]
      by_cases hi : I ≤ st.now - st.last_flush
      · rw [if_pos ⟨add_to_bulk_data_isEmpty st.bulk_data e idx, hi⟩,
          if_pos hi]
      · rw [if_neg (fun hand => hi hand.2), if_neg hi]
        exact (List.append_nil st.sent).symm
  · intro jl B I sleep idx st hph hget
    by_cases hfl : st.bulk_data.isEmpty = false
      ∧ I ≤ st.now + sleep - st.last_flush
    · have hstep : combinedStep jl B I sleep idx st .poll
          = { st with
              now := st.now + sleep,
              sent := st.sent ++ [(.interval, st.bulk_data)],
              bulk_data := [], last_flush := st.now + sleep } := by
        simp [combinedStep, hph, hget, hfl.1, hfl.2]
      rw [hstep, if_pos hfl]
    · have hstep : combinedStep jl B I sleep idx st .poll
          = { st with now := st.now + sleep } := by
        unfold combinedStep
        rw [hph, hget]
        dsimp only
        rw [if_neg hfl]
      rw [hstep, if_neg hfl]
      exact (List.append_nil st.sent).symm

/-- Witness for C5 at a check point where the count condition and the
interval condition hold simultaneously (running total 6 with batch size
3; 99 time units since the last flush with interval 5): the sink call is
count-tagged. -/
theorem C5_count_trigger_and_priority_witness :
    (parse_log_line json_loads_impl (rstrip_newline "7")
      = some (Json.num 7)) ∧
    ((continuous_line_body json_loads_impl 3 5 "logs"
        ⟨[], [], [.action "logs", .record (.num 4)], 5, 0, 99, [], []⟩
        "7").sent
      = (⟨[], [], [.action "logs", .record (.num 4)], 5, 0, 99, [], []⟩ :
          ContState).sent
        ++ (if ((⟨[], [], [.action "logs", .record (.num 4)], 5, 0, 99,
              [], []⟩ : ContState).processed + 1) % 3 = 0
            then [(.count, add_to_bulk_data
              (⟨[], [], [.action "logs", .record (.num 4)], 5, 0, 99, [],
                []⟩ : ContState).bulk_data (Json.num 7) "logs")]
            else if 5 ≤ (⟨[], [], [.action "logs", .record (.num 4)], 5,
                0, 99, [], []⟩ : ContState).now
              - (⟨[], [], [.action "logs", .record (.num 4)], 5, 0, 99,
                [], []⟩ : ContState).last_flush
              then [(.interval, add_to_bulk_data
                (⟨[], [], [.action "logs", .record (.num 4)], 5, 0, 99,
                  [], []⟩ : ContState).bulk_data (Json.num 7) "logs")]
              else [])) :=
  ⟨rfl,
    C5_count_trigger_and_priority.2.1 json_loads_impl 3 5 "logs"
      ⟨[], [], [.action "logs", .record (.num 4)], 5, 0, 99, [], []⟩
      "7" (Json.num 7) rfl⟩

/-!  Claim C10. -/

lemma export_log_finally_processed (st : OneTimeState) :
    (export_log_finally st).processed = st.processed := by
  unfold export_log_finally
  by_cases h : st.bulk_data.isEmpty <;> simp [h]

/-- C10, counterexample: the line `null` is syntactically valid JSON
(`json.loads` returns Python `None` for it, modelled as `some none`), yet
the one-time pipeline treats it exactly like a parse failure — not
counted, not batched, no sink call — while a number line is counted. -/
theorem C10_null_conflated_counterexample :
    json_loads_impl "null" = some none ∧
    (export_log_to_opensearch json_loads_impl 100 "logs" ["null"]).processed
      = 0 ∧
    (export_log_to_opensearch json_loads_impl 100 "logs" ["null"]).sent
      = [] ∧
    (export_log_to_opensearch json_loads_impl 100 "logs" ["17"]).processed
      = 1 :=
  ⟨rfl, rfl, rfl, rfl⟩

/-- C10 (amended): a line whose JSON value is anything other than `null`
— number, string, boolean, array, or object — is returned by the parser
as a successful record and counted like any object record: the one-time
processed counter counts exactly the lines whose parse is successful, and
`parse_log_line` passes every non-null loaded value through unchanged.
The exception is JSON `null`: Python's `json.loads` returns `None` for
it, which is indistinguishable from the parser's failure return, so a
`null` line is skipped and never counted. -/
theorem C10_nonobject_json_records :
    (∀ (jl : String → LoadResult) (B : Nat) (idx : String)
        (fileLines : List String),
        (export_log_to_opensearch jl B idx fileLines).processed
          = (yield_log_lines fileLines).countP
              (fun l => (parse_log_line jl l).isSome)) ∧
    (∀ (jl : String → LoadResult) (line : String) (v : Json),
        jl line = some (some v) → parse_log_line jl line = some v) ∧
    (∀ (jl : String → LoadResult) (line : String),
        jl line = some none → parse_log_line jl line = none) := by
  refine ⟨?_, ?_, ?_⟩
  · intro jl B idx fileLines
    unfold export_log_to_opensearch
    rw [export_log_finally_processed]
    have h := (export_fold_facts jl B idx (yield_log_lines fileLines)
      ⟨[], 0, [], []⟩).2.2
    simpa using h
  · intro jl line v h
    unfold parse_log_line
    rw [h]
  · intro jl line h
    unfold parse_log_line
    rw [h]

/-- Witness for the amended C10: a bare number and a bare boolean are
accepted as records and counted; a null line is not. -/
theorem C10_nonobject_json_records_witness :
    ((export_log_to_opensearch json_loads_impl 100 "logs"
        ["42", "true", "null"]).processed
      = (yield_log_lines ["42", "true", "null"]).countP
          (fun l => (parse_log_line json_loads_impl l).isSome)) ∧
    (json_loads_impl "42" = some (some (Json.num 42)) ∧
      parse_log_line json_loads_impl "42" = some (Json.num 42)) ∧
    (json_loads_impl "null" = some none ∧
      parse_log_line json_loads_impl "null" = none) :=
  ⟨C10_nonobject_json_records.1 json_loads_impl 100 "logs"
      ["42", "true", "null"],
    ⟨rfl, C10_nonobject_json_records.2.1 json_loads_impl "42"
      (Json.num 42) rfl⟩,
    ⟨rfl, C10_nonobject_json_records.2.2 json_loads_impl "null" rfl⟩⟩

/-!  Claim C7: the `__main__` start-up sequence (lines 257-283). -/

/-- An interaction with the OpenSearch side observable from the start-up
sequence: the connection test (`test_opensearch_connection`, which calls
`client.info()`), the index setup (`create_index_if_not_exists`, which
always queries `client.indices.exists` and possibly creates the index),
or a bulk write. -/
inductive SinkCall where
  | connectionTest
  | indexSetup
  | bulk (data : List BulkItem)

/-- The configuration surface read from the environment by the module. -/
structure Config where
  host : Option String
  index : Option String
  log_file_path : Option String
  export_mode : String
  connection_ok : Bool

/-- Python truthiness of an optional string: `None` and `""` are falsy,
matching `if not LOG_FILE_PATH`. -/
def pyTruthy : Option String → Bool
  | none => false
  | some s => s != ""

/-- Models Python's `str.lower()` as applied to `EXPORT_MODE`. -/
def pylower (s : String) : String := ⟨s.data.map Char.toLower⟩

/-- Outcome of a run of the program: the process exit code (`none` when
the run does not terminate, i.e. the tailing loops with a valid
configuration), the sink interactions in order, and whether the source
file was ever opened. -/
structure MainResult where
  exitCode : Option Nat
  sinkCalls : List SinkCall
  fileOpened : Bool

/-- Embedding of the `__main__` block (lines 257-283) together with the
config checks at the top of each mode function: missing host exits 1
before any client exists; the connection test runs next and a failure
exits 1; a missing index exits 1 after the connection test; index setup
always touches the sink once the index name is known; a missing/empty
source path makes the selected mode function log and `return`, after
which `__main__` falls through to its final log line and the process
exits 0; an unknown mode exits 1 after connection test and index setup.
In no configuration-failure case is the source file opened.  (For a
tailing mode with a valid configuration the loop never returns; its
later sink calls are not modelled and the exit code is `none`.) -/
def mainRun (cfg : Config) (jl : String → LoadResult) (B : Nat)
    (fileLines : List String) : MainResult :=
  match cfg.host with
  | none => ⟨some 1, [], false⟩
  | some _ =>
    if cfg.connection_ok = false then ⟨some 1, [.connectionTest], false⟩
    else
      match cfg.index with
      | none => ⟨some 1, [.connectionTest], false⟩
      | some idx =>
        let pre : List SinkCall := [.connectionTest, .indexSetup]
        let mode := pylower cfg.export_mode
        if mode = "one_time" then
          if pyTruthy cfg.log_file_path = false then ⟨some 0, pre, false⟩
          else
            let run := export_log_to_opensearch jl B idx fileLines
            ⟨some 0, pre ++ run.sent.map (fun b => .bulk b.2), true⟩
        else if mode = "continuous" then
          if pyTruthy cfg.log_file_path = false then ⟨some 0, pre, false⟩
          else ⟨none, pre, true⟩
        else if mode = "combined" then
          if pyTruthy cfg.log_file_path = false then ⟨some 0, pre, false⟩
          else ⟨none, pre, true⟩
        else ⟨some 1, pre, false⟩

/-- C7, counterexample: with host and index set, connection fine, and the
source file path missing, a one-time run logs the error, returns
normally and the process exits 0 — not non-zero; and with an unknown
mode the process does exit 1, but only after two sink interactions
(connection test and index setup) — not before any sink call.  The file
is never opened in either case. -/
theorem C7_exit_before_sink_counterexample :
    (mainRun ⟨some "h", some "ix", none, "one_time", true⟩ json_loads_impl
        100 []).exitCode = some 0 ∧
    (mainRun ⟨some "h", some "ix", none, "one_time", true⟩ json_loads_impl
        100 []).fileOpened = false ∧
    (mainRun ⟨some "h", some "ix", some "/log", "bogus", true⟩
        json_loads_impl 100 []).exitCode = some 1 ∧
    (mainRun ⟨some "h", some "ix", some "/log", "bogus", true⟩
        json_loads_impl 100 []).sinkCalls.length = 2 :=
  ⟨rfl, rfl, rfl, rfl⟩

/-- C7 (amended): a missing host exits 1 before any sink interaction or
file access; a missing index exits 1 after the connection test but before
index setup, without touching the file; an unknown mode exits 1 after the
connection test and index setup, without touching the file; and a
missing (or empty) source file path does not exit non-zero at all — the
selected mode function returns, the process completes and exits 0 — but
the source file is still never touched and no bulk write is made. -/
theorem C7_config_failure_behavior (cfg : Config)
    (jl : String → LoadResult) (B : Nat) (fileLines : List String) :
    (cfg.host = none →
      mainRun cfg jl B fileLines = ⟨some 1, [], false⟩) ∧
    (∀ h, cfg.host = some h → cfg.connection_ok = true →
      cfg.index = none →
      mainRun cfg jl B fileLines = ⟨some 1, [.connectionTest], false⟩) ∧
    (∀ h i, cfg.host = some h → cfg.connection_ok = true →
      cfg.index = some i →
      pylower cfg.export_mode ≠ "one_time" →
      pylower cfg.export_mode ≠ "continuous" →
      pylower cfg.export_mode ≠ "combined" →
      mainRun cfg jl B fileLines
        = ⟨some 1, [.connectionTest, .indexSetup], false⟩) ∧
    (∀ h i, cfg.host = some h → cfg.connection_ok = true →
      cfg.index = some i →
      pyTruthy cfg.log_file_path = false →
      (pylower cfg.export_mode = "one_time"
        ∨ pylower cfg.export_mode = "continuous"
        ∨ pylower cfg.export_mode = "combined") →
      mainRun cfg jl B fileLines
        = ⟨some 0, [.connectionTest, .indexSetup], false⟩) := by
  refine ⟨?_, ?_, ?_, ?_⟩
  · intro hh
    unfold mainRun
    rw [hh]
  · intro h hh hconn hidx
    unfold mainRun
    rw [hh, hidx]
    dsimp only
    rw [hconn]
    rfl
  · intro h i hh hconn hidx h1 h2 h3
    unfold mainRun
    rw [hh, hidx]
    dsimp only
    rw [hconn, if_neg (by decide : ¬ (true = false))]
    rw [if_neg h1, if_neg h2, if_neg h3]
  · intro h i hh hconn hidx hpath hmode
    unfold mainRun
    rw [hh, hidx]
    dsimp only
    rw [hconn, if_neg (by decide : ¬ (true = false))]
    rcases hmode with hm | hm | hm
    · rw [if_pos hm, if_pos hpath]
    · have hne : pylower cfg.export_mode ≠ "one_time" := by
        rw [hm]; decide
      rw [if_neg hne, if_pos hm, if_pos hpath]
    · have hne1 : pylower cfg.export_mode ≠ "one_time" := by
        rw [hm]; decide
      have hne2 : pylower cfg.export_mode ≠ "continuous" := by
        rw [hm]; decide
      rw [if_neg hne1, if_neg hne2, if_pos hm, if_pos hpath]

/-- Witness for the amended C7 at concrete configurations exercising all
four cases. -/
theorem C7_config_failure_behavior_witness :
    (mainRun ⟨none, some "ix", some "/log", "one_time", true⟩
        json_loads_impl 100 [] = ⟨some 1, [], false⟩) ∧
    (mainRun ⟨some "h", none, some "/log", "one_time", true⟩
        json_loads_impl 100 [] = ⟨some 1, [.connectionTest], false⟩) ∧
    (mainRun ⟨some "h", some "ix", some "/log", "bogus", true⟩
        json_loads_impl 100 []
      = ⟨some 1, [.connectionTest, .indexSetup], false⟩) ∧
    (mainRun ⟨some "h", some "ix", none, "ONE_TIME", true⟩
        json_loads_impl 100 []
      = ⟨some 0, [.connectionTest, .indexSetup], false⟩) :=
  ⟨(C7_config_failure_behavior ⟨none, some "ix", some "/log", "one_time",
      true⟩ json_loads_impl 100 []).1 rfl,
    (C7_config_failure_behavior ⟨some "h", none, some "/log", "one_time",
      true⟩ json_loads_impl 100 []).2.1 "h" rfl rfl rfl,
    (C7_config_failure_behavior ⟨some "h", some "ix", some "/log", "bogus",
      true⟩ json_loads_impl 100 []).2.2.1 "h" "ix" rfl rfl rfl
      (by decide) (by decide) (by decide),
    (C7_config_failure_behavior ⟨some "h", some "ix", none, "ONE_TIME",
      true⟩ json_loads_impl 100 []).2.2.2 "h" "ix" rfl rfl rfl rfl
      (Or.inl (by decide))⟩

end LogExporter
